import Mathlib

/-
  Verification of SerialPrint (src/python/SerialPrint.py) against its
  natural-language specification.

  Python strings are modelled as List Char.  Each definition below embeds the
  correspondingly named Python function; comments note the source lines.
-/

set_option maxHeartbeats 1000000

namespace SerialPrint

/-- Characters removed by Python str.strip() with no argument, restricted to
the ASCII whitespace relevant to serial traffic (Python additionally strips
rarer Unicode whitespace, which cannot occur in the protocol lines at issue). -/
def isPySpace (c : Char) : Bool :=
  c == ' ' || c == '\t' || c == '\n' || c == '\r' || c == '\x0b' || c == '\x0c'

/-- Python str.strip(): removes leading and trailing whitespace. -/
def pyStrip (l : List Char) : List Char :=
  ((l.dropWhile isPySpace).reverse.dropWhile isPySpace).reverse

/-- StripGCode, lines 37-43: copies characters until the first semicolon and
stops there (the `x == None` disjunct in the source can never hold for a
character of a string, so it adds nothing). -/
def stripGCode : List Char → List Char
  | [] => []
  | x :: rest => if x = ';' then [] else x :: stripGCode rest

/-- One attempted match of the regex pattern d*[dot]d* (TempRegex, line 12) at
the start of the input: a maximal digit run, then a mandatory dot, then a
maximal digit run.  Returns the matched token and the remaining input.
Backtracking inside the first d* cannot help, because every shorter digit run
is followed by a digit, never by a dot; so the regex engine's behaviour at one
position is exactly this function. -/
def matchAt (l : List Char) : Option (List Char × List Char) :=
  match l.dropWhile Char.isDigit with
  | c :: rest =>
      if c = '.' then
        some (l.takeWhile Char.isDigit ++ c :: rest.takeWhile Char.isDigit,
              rest.dropWhile Char.isDigit)
      else none
  | [] => none

/-- re.findall of TempRegex, scanning left to right, taking each leftmost
match and resuming after it; fuelled so the recursion is structural.  Every
match contains the mandatory dot, hence consumes at least one character, so
fuel equal to the input length never runs out (findallAux_fuel_eq below). -/
def findallAux : Nat → List Char → List (List Char)
  | 0, _ => []
  | _ + 1, [] => []
  | fuel + 1, c :: rest =>
    match matchAt (c :: rest) with
    | some (m, after) => m :: findallAux fuel after
    | none => findallAux fuel rest

/-- re.findall(TempRegex, l), line 119. -/
def findall (l : List Char) : List (List Char) :=
  findallAux l.length l

/-- The module-level mutable variables of SerialPrint.py that ParseResponse
can touch (lines 16-26): four temperature strings and the status label.
The source names extruderTempMax / bedTempMax are kept (the spec calls them
targets). -/
structure PrinterState where
  extruderTemp : List Char
  extruderTempMax : List Char
  bedTemp : List Char
  bedTempMax : List Char
  printerStatus : List Char
deriving DecidableEq

/-- The initial values of the globals, lines 16-26. -/
def initState : PrinterState :=
  { extruderTemp := "0".data
    extruderTempMax := "0".data
    bedTemp := "0".data
    bedTempMax := "0".data
    printerStatus := "default".data }

/-- Lines 119-128 of ParseResponse: when at least four regex tokens are found,
the four temperature globals are overwritten by tokens 0-3; otherwise nothing
changes. -/
def updateTemps (r : List Char) (st : PrinterState) : PrinterState :=
  match findall r with
  | e :: eM :: b :: bM :: _ =>
      { st with extruderTemp := e, extruderTempMax := eM,
                bedTemp := b, bedTempMax := bM }
  | _ => st

/-- ParseResponse, lines 114-140.  Returns (readiness, new globals).
Faithful to the Python as written: the assignments `printerStatus = "Printing"`
(line 134) and `printerStatus = "Heating"` (line 138) occur inside a function
with no `global printerStatus` declaration, so they bind a function-local name
and the module-level printerStatus is never modified; accordingly neither
branch below changes the printerStatus field. -/
def parseResponse (resp : List Char) (st : PrinterState) : Bool × PrinterState :=
  let r := pyStrip resp
  let st1 := if ("T:".data.isPrefixOf r || "ok T:".data.isPrefixOf r)
             then updateTemps r st else st
  if "ok T:".data.isPrefixOf r then (false, st1)
  else if "ok".data.isPrefixOf r then (true, st1)
  else if r = "echo:busy: processing".data then (false, st1)
  else (false, st1)

/-- Decimal digit string of a natural number, as Python str() renders it. -/
def natStr (n : Nat) : List Char :=
  (Nat.repr n).data

/-- FormatSeconds, lines 76-88, on an integer number of seconds.  The pluralised
suffix conditions `(x > 1 or x == 0)` are transcribed exactly as written. -/
def formatSeconds (seconds : Nat) : List Char :=
  let hours := seconds / 3600
  let r3600 := seconds % 3600
  let minutes := r3600 / 60
  let secs := r3600 % 60
  let ret1 : List Char :=
    if hours ≠ 0 then
      natStr hours ++ " Hour".data ++
        (if hours > 1 ∨ hours = 0 then "s, ".data else ", ".data)
    else []
  let ret2 : List Char :=
    if minutes ≠ 0 then
      ret1 ++ natStr minutes ++ " Minute".data ++
        (if minutes > 1 ∨ minutes = 0 then "s, ".data else ", ".data)
    else ret1
  ret2 ++ natStr secs ++ " Second".data ++
    (if secs > 1 ∨ secs = 0 then "s".data else [])

/-- One duration unit as the spec words it: the value, the unit label, and a
plural s exactly when the value is not 1. -/
def unitWord (v : Nat) (label : List Char) : List Char :=
  natStr v ++ label ++ (if v = 1 then [] else "s".data)

/-- Duration formatting as the spec words it: hours and minutes are omitted
when zero, the seconds unit always appears, included units are separated by
a comma and space, and a label is singular exactly for the value 1. -/
def formatSecondsSpec (n : Nat) : List Char :=
  (if n / 3600 = 0 then [] else unitWord (n / 3600) " Hour".data ++ ", ".data) ++
  (if n % 3600 / 60 = 0 then [] else unitWord (n % 3600 / 60) " Minute".data ++ ", ".data) ++
  unitWord (n % 3600 % 60) " Second".data

/-- Python str.split on a newline separator, as used on the file data at
line 178: empty segments are kept, and a trailing newline yields a trailing
empty segment. -/
def splitNL : List Char → List (List Char)
  | [] => [[]]
  | c :: rest =>
    if c = '\n' then [] :: splitNL rest
    else match splitNL rest with
      | [] => [[c]]
      | h :: t => (c :: h) :: t

/-- One iteration of the instruction filter in the main loop, lines 188-196:
trim the raw line, drop it when blank, drop it when it starts with a comment
marker, drop it when it starts with M105, and otherwise strip its inline
comment.  Line 193 of the source lacks the colon after the M105 test — a
Python SyntaxError — and is modelled here as its adjacent comment directs
(drop the line). -/
def processLine (raw : List Char) : Option (List Char) :=
  let i := pyStrip raw
  if i = [] then none
  else if [';'].isPrefixOf i then none
  else if "M105".data.isPrefixOf i then none
  else some (stripGCode i)

/-- A trimmed line survives the filter when it is non-blank, is not a comment
line, and is not an M105 line. -/
def keptLine (i : List Char) : Bool :=
  !(i.isEmpty) && !([';'].isPrefixOf i) && !("M105".data.isPrefixOf i)

/-- The instruction sequence the main loop sends: the file data split into
lines, each passed through the filter of lines 188-196. -/
def instructionSequence (fileData : List Char) : List (List Char) :=
  (splitNL fileData).filterMap processLine

/-- Observable serial-side and screen-side actions of one turn of the print
loop, lines 184-208: a temperature poll (M105 write), an instruction write,
a screen redraw, and a blocking read of one response line. -/
inductive Event where
  | poll
  | send (i : List Char)
  | redraw
  | read (l : List Char)
deriving DecidableEq

/-- The acknowledgment-wait loop, lines 202-208: each iteration optionally
redraws (when the refresh interval elapsed, here the Bool of the pair), reads
one line, feeds it to ParseResponse, and exits once it reports ready.  The
supplied list are the successive (redrawDue, responseLine) pairs; the loop is
modelled up to exhaustion of that list (the real loop blocks forever on an
unresponsive device). -/
def waitLoop : PrinterState → List (Bool × List Char) → List Event × PrinterState
  | st, [] => ([], st)
  | st, (rd, line) :: rest =>
    let pre : List Event := if rd then [Event.redraw] else []
    let res := parseResponse line st
    if res.1 then (pre ++ [Event.read line], res.2)
    else
      let cont := waitLoop res.2 rest
      (pre ++ Event.read line :: cont.1, cont.2)

/-- One turn of the print loop, lines 184-208, for one raw line of the file:
first the poll-interval check (pollDue says whether TempInterval elapsed, in
which case M105 is written), then the line filter of lines 188-194, and, when
the line survives, the comment strip, the instruction write, the immediate
redraw, and the acknowledgment-wait loop. -/
def turn (pollDue : Bool) (rawLine : List Char) (st : PrinterState)
    (waits : List (Bool × List Char)) : List Event × PrinterState :=
  let pollEvs : List Event := if pollDue then [Event.poll] else []
  let i := pyStrip rawLine
  if i = [] then (pollEvs, st)
  else if [';'].isPrefixOf i then (pollEvs, st)
  else if "M105".data.isPrefixOf i then (pollEvs, st)
  else
    let w := waitLoop st waits
    (pollEvs ++ Event.send (stripGCode i) :: Event.redraw :: w.1, w.2)

/- ------------------------------------------------------------------ -/
/- Helper lemmas about stripGCode.                                     -/
/- ------------------------------------------------------------------ -/

lemma stripGCode_cons_ne {x : Char} (rest : List Char) (hx : x ≠ ';') :
    stripGCode (x :: rest) = x :: stripGCode rest := by
  simp [stripGCode, hx]

lemma stripGCode_no_semi (l : List Char) : ';' ∉ stripGCode l := by
  induction l with
  | nil => simp [stripGCode]
  | cons x rest ih =>
    by_cases hx : x = ';'
    · simp [stripGCode, hx]
    · rw [stripGCode_cons_ne rest hx]
      intro hmem
      rcases List.mem_cons.mp hmem with h | h
      · exact hx h.symm
      · exact ih h

/-- C8: for every string L, StripGCode(L) contains no semicolon, and it equals
the prefix of L that precedes the first semicolon when L contains one, and all
of L otherwise. -/
theorem stripGCode_spec (L : List Char) :
    ';' ∉ stripGCode L ∧
    ((';' ∈ L ∧ stripGCode L = L.take (L.indexOf ';')) ∨
     (';' ∉ L ∧ stripGCode L = L)) := by
  refine ⟨stripGCode_no_semi L, ?_⟩
  induction L with
  | nil => right; simp [stripGCode]
  | cons x rest ih =>
    by_cases hx : x = ';'
    · left
      subst hx
      constructor
      · exact List.mem_cons_self _ _
      · simp [stripGCode, List.indexOf_cons_self]
    · rcases ih with ⟨hmem, heq⟩ | ⟨hmem, heq⟩
      · left
        refine ⟨List.mem_cons_of_mem _ hmem, ?_⟩
        rw [stripGCode_cons_ne rest hx]
        have hbeq : (x == ';') = false := beq_eq_false_iff_ne.mpr hx
        have hidx : (x :: rest).indexOf ';' = rest.indexOf ';' + 1 := by
          simp [List.indexOf_cons, hbeq]
        rw [hidx, List.take_succ_cons, heq]
      · right
        constructor
        · intro hmem2
          rcases List.mem_cons.mp hmem2 with h | h
          · exact hx h.symm
          · exact hmem h
        · rw [stripGCode_cons_ne rest hx, heq]

/-- C9: StripGCode is idempotent. -/
theorem stripGCode_idem (L : List Char) :
    stripGCode (stripGCode L) = stripGCode L := by
  induction L with
  | nil => rfl
  | cons x rest ih =>
    by_cases hx : x = ';'
    · simp [stripGCode, hx]
    · rw [stripGCode_cons_ne rest hx, stripGCode_cons_ne (stripGCode rest) hx, ih]

/- ------------------------------------------------------------------ -/
/- C1 and C5: the lost printerStatus updates.                          -/
/- ------------------------------------------------------------------ -/

/-- C1 (code bug): a bare "ok" line makes ParseResponse return ready, as the
claim says, but the whole global state — including printerStatus — is
unchanged, because the assignment `printerStatus = "Printing"` on line 134
lacks a `global printerStatus` declaration and so writes a function-local
variable that is immediately discarded.  The claimed transition of
PrinterStatus to Printing never happens. -/
theorem parseResponse_ok_no_status_change (st : PrinterState) :
    parseResponse "ok".data st = (true, st) := rfl

/-- C5 (code bug): the exact line "echo:busy: processing" makes ParseResponse
return not-ready, as the claim says, but printerStatus is not set to Heating:
the assignment on line 138 lacks a `global printerStatus` declaration, so the
module-level printerStatus is untouched and the whole state is returned
unchanged. -/
theorem parseResponse_busy_no_status_change (st : PrinterState) :
    parseResponse "echo:busy: processing".data st = (false, st) := rfl

/- ------------------------------------------------------------------ -/
/- The regex scan: every token carries a dot, and the fuel is ample.   -/
/- ------------------------------------------------------------------ -/

lemma length_dropWhile_le_self (p : Char → Bool) (l : List Char) :
    (l.dropWhile p).length ≤ l.length := by
  induction l with
  | nil => simp
  | cons a t ih =>
    by_cases h : p a
    · simp only [List.dropWhile_cons, h, if_true, List.length_cons]
      omega
    · simp [List.dropWhile_cons, h]

lemma matchAt_some {l m a : List Char} (h : matchAt l = some (m, a)) :
    '.' ∈ m ∧ '.' ∈ l ∧ a.length < l.length := by
  unfold matchAt at h
  cases hd : l.dropWhile Char.isDigit with
  | nil => rw [hd] at h; simp at h
  | cons c rest =>
    rw [hd] at h
    by_cases hc : c = '.'
    · subst hc
      simp at h
      obtain ⟨hm, ha⟩ := h
      refine ⟨?_, ?_, ?_⟩
      · rw [← hm]
        exact List.mem_append_right _ (List.mem_cons_self _ _)
      · have hcmem : '.' ∈ l.dropWhile Char.isDigit := by
          rw [hd]; exact List.mem_cons_self _ _
        rw [← List.takeWhile_append_dropWhile Char.isDigit l]
        exact List.mem_append_right _ hcmem
      · have h1 : a.length ≤ rest.length := by
          rw [← ha]; exact length_dropWhile_le_self _ _
        have h2 := congrArg List.length (List.takeWhile_append_dropWhile Char.isDigit l)
        rw [List.length_append, hd] at h2
        simp only [List.length_cons] at h2
        omega
    · simp [hc] at h

lemma findallAux_mem_dot : ∀ fuel l t, t ∈ findallAux fuel l → '.' ∈ t := by
  intro fuel
  induction fuel with
  | zero => intro l t h; simp [findallAux] at h
  | succ n ih =>
    intro l t h
    cases l with
    | nil => simp [findallAux] at h
    | cons c rest =>
      simp only [findallAux] at h
      cases hm : matchAt (c :: rest) with
      | some p =>
        obtain ⟨m, a⟩ := p
        rw [hm] at h
        simp at h
        rcases h with h | h
        · subst h; exact (matchAt_some hm).1
        · exact ih a t h
      | none =>
        rw [hm] at h
        exact ih rest t h

lemma findallAux_eq_nil : ∀ fuel l, '.' ∉ l → findallAux fuel l = [] := by
  intro fuel
  induction fuel with
  | zero => intro l _; simp [findallAux]
  | succ n ih =>
    intro l hl
    cases l with
    | nil => simp [findallAux]
    | cons c rest =>
      simp only [findallAux]
      cases hm : matchAt (c :: rest) with
      | some p =>
        obtain ⟨m, a⟩ := p
        exact absurd (matchAt_some hm).2.1 hl
      | none =>
        exact ih rest fun hmem => hl (List.mem_cons_of_mem _ hmem)

/-- The fuel used by findall never runs out: any fuel at least the input
length gives the same token list, because every match consumes at least the
mandatory dot. -/
lemma findallAux_fuel_eq : ∀ n f1 f2 l, l.length ≤ n → l.length ≤ f1 →
    l.length ≤ f2 → findallAux f1 l = findallAux f2 l := by
  intro n
  induction n with
  | zero =>
    intro f1 f2 l hn _ _
    have hl : l = [] := List.eq_nil_of_length_eq_zero (Nat.le_zero.mp hn)
    subst hl
    cases f1 <;> cases f2 <;> rfl
  | succ n ih =>
    intro f1 f2 l hn h1 h2
    cases l with
    | nil => cases f1 <;> cases f2 <;> rfl
    | cons c rest =>
      cases f1 with
      | zero => simp at h1
      | succ g1 =>
        cases f2 with
        | zero => simp at h2
        | succ g2 =>
          simp only [findallAux]
          cases hm : matchAt (c :: rest) with
          | some p =>
            obtain ⟨m, a⟩ := p
            show m :: findallAux g1 a = m :: findallAux g2 a
            have hlt := (matchAt_some hm).2.2
            simp only [List.length_cons] at hn h1 h2 hlt
            congr 1
            exact ih g1 g2 a (by omega) (by omega) (by omega)
          | none =>
            show findallAux g1 rest = findallAux g2 rest
            simp only [List.length_cons] at hn h1 h2
            exact ih g1 g2 rest (by omega) (by omega) (by omega)

lemma findall_mem_dot {l t : List Char} (h : t ∈ findall l) : '.' ∈ t :=
  findallAux_mem_dot _ _ _ h

lemma findall_eq_nil {l : List Char} (h : '.' ∉ l) : findall l = [] :=
  findallAux_eq_nil _ _ h

/-- C10: the temperature scan only ever extracts tokens containing a decimal
point; on a line with no decimal point it finds nothing, so ParseResponse on
the dot-free report "T:200 /200 B:60 /60" leaves the whole state unchanged
and reports not-ready. -/
theorem tempRegex_requires_dot (l : List Char) (st : PrinterState) :
    ('.' ∉ l → findall l = []) ∧
    (∀ t ∈ findall l, '.' ∈ t) ∧
    parseResponse "T:200 /200 B:60 /60".data st = (false, st) :=
  ⟨fun h => findall_eq_nil h, fun _ ht => findall_mem_dot ht, rfl⟩

/-- Witness for C10 at a concrete dot-free temperature line. -/
theorem tempRegex_requires_dot_witness :
    findall "T:200 /200 B:60 /60".data = [] ∧
    parseResponse "T:200 /200 B:60 /60".data initState = (false, initState) :=
  ⟨(tempRegex_requires_dot "T:200 /200 B:60 /60".data initState).1 (by decide),
   (tempRegex_requires_dot "T:200 /200 B:60 /60".data initState).2.2⟩

/- ------------------------------------------------------------------ -/
/- C2 and C6: ParseResponse on temperature reports and noise.          -/
/- ------------------------------------------------------------------ -/

lemma updateTemps_short (r : List Char) (st : PrinterState)
    (h : (findall r).length < 4) : updateTemps r st = st := by
  unfold updateTemps
  split
  · rename_i e eM b bM rest heq
    rw [heq] at h
    simp only [List.length_cons] at h
    omega
  · rfl

lemma T_prefix_shape {r : List Char} (h : "T:".data.isPrefixOf r = true) :
    ∃ s, r = 'T' :: ':' :: s := by
  cases r with
  | nil => simp [List.isPrefixOf] at h
  | cons a t =>
    cases t with
    | nil => simp [List.isPrefixOf] at h
    | cons b u =>
      simp [List.isPrefixOf] at h
      exact ⟨u, by rw [← h.1, ← h.2]⟩

/-- C2 (confirmed): a trimmed line starting with a temperature-report prefix
and yielding at least four regex tokens overwrites the four temperature
globals with tokens 0 to 3 in that order (extras ignored, printerStatus kept);
and any line starting with the acknowledgment-plus-temperature form returns
not-ready, never acting as an instruction acknowledgment. -/
theorem parseResponse_temp_report (resp : List Char) (st : PrinterState) :
    (∀ a b c d rest,
      ("T:".data.isPrefixOf (pyStrip resp) = true ∨
       "ok T:".data.isPrefixOf (pyStrip resp) = true) →
      findall (pyStrip resp) = a :: b :: c :: d :: rest →
      (parseResponse resp st).2 =
        { st with extruderTemp := a, extruderTempMax := b,
                  bedTemp := c, bedTempMax := d }) ∧
    ("ok T:".data.isPrefixOf (pyStrip resp) = true →
      (parseResponse resp st).1 = false) := by
  constructor
  · intro a b c d rest hpre htoks
    have hcond : ("T:".data.isPrefixOf (pyStrip resp) ||
        "ok T:".data.isPrefixOf (pyStrip resp)) = true := by
      rcases hpre with h | h <;> simp [h]
    simp only [parseResponse, hcond, if_true, updateTemps, htoks]
    split_ifs <;> rfl
  · intro hok
    simp [parseResponse, hok]

/-- Witness for C2 at the spec's example line. -/
theorem parseResponse_temp_report_witness :
    (parseResponse "ok T:200.0 /200.0 B:60.0 /60.0".data initState).2 =
      { initState with
          extruderTemp := "200.0".data, extruderTempMax := "200.0".data,
          bedTemp := "60.0".data, bedTempMax := "60.0".data } ∧
    (parseResponse "ok T:200.0 /200.0 B:60.0 /60.0".data initState).1 = false :=
  ⟨(parseResponse_temp_report "ok T:200.0 /200.0 B:60.0 /60.0".data initState).1
      "200.0".data "200.0".data "60.0".data "60.0".data []
      (Or.inr (by decide)) (by decide),
   (parseResponse_temp_report "ok T:200.0 /200.0 B:60.0 /60.0".data initState).2
      (by decide)⟩

/-- C6 (confirmed): a line that is unrecognized after trimming, or a
temperature line carrying fewer than four regex tokens, leaves every global
(temperatures and printerStatus) unchanged and yields not-ready; no error
path exists. -/
theorem parseResponse_ignores_noise (resp : List Char) (st : PrinterState) :
    (("T:".data.isPrefixOf (pyStrip resp) = false ∧
      "ok T:".data.isPrefixOf (pyStrip resp) = false ∧
      "ok".data.isPrefixOf (pyStrip resp) = false ∧
      pyStrip resp ≠ "echo:busy: processing".data) ∨
     (("T:".data.isPrefixOf (pyStrip resp) = true ∨
       "ok T:".data.isPrefixOf (pyStrip resp) = true) ∧
      (findall (pyStrip resp)).length < 4)) →
    parseResponse resp st = (false, st) := by
  intro h
  rcases h with ⟨hT, hokT, hok, hecho⟩ | ⟨hpre, hlen⟩
  · simp [parseResponse, hT, hokT, hok, hecho]
  · have hupd := updateTemps_short (pyStrip resp) st hlen
    rcases hpre with hT | hokT
    · obtain ⟨s, hs⟩ := T_prefix_shape hT
      have hokT2 : "ok T:".data.isPrefixOf (pyStrip resp) = false := by
        rw [hs]; rfl
      have hok2 : "ok".data.isPrefixOf (pyStrip resp) = false := by
        rw [hs]; rfl
      have hecho2 : pyStrip resp ≠ "echo:busy: processing".data := by
        rw [hs]
        intro hcontra
        injection hcontra with h1 _
        exact absurd h1 (by decide)
      simp [parseResponse, hT, hokT2, hok2, hecho2, hupd]
    · simp [parseResponse, hokT, hupd]

/-- Witness for C6 at the spec's garbage line "foo". -/
theorem parseResponse_ignores_noise_witness :
    parseResponse "foo".data initState = (false, initState) :=
  parseResponse_ignores_noise "foo".data initState
    (Or.inl ⟨by decide, by decide, by decide, by decide⟩)

/- ------------------------------------------------------------------ -/
/- C4: duration formatting.                                            -/
/- ------------------------------------------------------------------ -/

/-- C4 (confirmed): FormatSeconds agrees with the spec's wording — hours and
minutes are omitted when zero, the seconds unit always appears, and a unit
label is singular exactly for the value 1 (0 is plural) — and reproduces the
spec's five example durations. -/
theorem formatSeconds_correct :
    (∀ n, formatSeconds n = formatSecondsSpec n) ∧
    formatSeconds 0 = "0 Seconds".data ∧
    formatSeconds 1 = "1 Second".data ∧
    formatSeconds 61 = "1 Minute, 1 Second".data ∧
    formatSeconds 3661 = "1 Hour, 1 Minute, 1 Second".data ∧
    formatSeconds 7325 = "2 Hours, 2 Minutes, 5 Seconds".data := by
  refine ⟨?_, rfl, rfl, rfl, rfl, rfl⟩
  intro n
  have hsplit : ("s, ".data : List Char) = "s".data ++ ", ".data := rfl
  by_cases h0 : n / 3600 = 0 <;> by_cases h1 : n / 3600 = 1 <;>
    by_cases m0 : n % 3600 / 60 = 0 <;> by_cases m1 : n % 3600 / 60 = 1 <;>
    by_cases s1 : n % 3600 % 60 = 1
  all_goals
    first
      | omega
      | (try have hH : n / 3600 > 1 ∨ n / 3600 = 0 := by omega
         try have hM : n % 3600 / 60 > 1 ∨ n % 3600 / 60 = 0 := by omega
         try have hS : n % 3600 % 60 > 1 ∨ n % 3600 % 60 = 0 := by omega
         try have hHgt : 1 < n / 3600 := by omega
         try have hMgt : 1 < n % 3600 / 60 := by omega
         try have hSgt : 1 < n % 3600 % 60 := by omega
         simp [formatSeconds, formatSecondsSpec, unitWord, hsplit,
               List.append_assoc, *])

/- ------------------------------------------------------------------ -/
/- C3: the instruction filter of the main loop.                        -/
/- ------------------------------------------------------------------ -/

lemma processLine_eq (raw : List Char) :
    processLine raw =
      if keptLine (pyStrip raw) then some (stripGCode (pyStrip raw)) else none := by
  unfold processLine keptLine
  by_cases h1 : pyStrip raw = []
  · simp [h1]
  · have h1b : (pyStrip raw).isEmpty = false := by
      cases hp : pyStrip raw with
      | nil => exact absurd hp h1
      | cons x s => rfl
    by_cases h2 : [';'].isPrefixOf (pyStrip raw) = true
    · simp [h1, h1b, h2]
    · have h2b : [';'].isPrefixOf (pyStrip raw) = false := by
        cases hb : [';'].isPrefixOf (pyStrip raw)
        · rfl
        · exact absurd hb h2
      by_cases h3 : "M105".data.isPrefixOf (pyStrip raw) = true
      · simp [h1, h1b, h2b, h3]
      · have h3b : "M105".data.isPrefixOf (pyStrip raw) = false := by
          cases hb : "M105".data.isPrefixOf (pyStrip raw)
          · rfl
          · exact absurd hb h3
        simp [h1, h1b, h2b, h3b]

lemma filterMap_processLine (ls : List (List Char)) :
    ls.filterMap processLine = ((ls.map pyStrip).filter keptLine).map stripGCode := by
  induction ls with
  | nil => rfl
  | cons a t ih =>
    rw [List.filterMap_cons, processLine_eq, List.map_cons, List.filter_cons]
    by_cases hk : keptLine (pyStrip a) = true
    · simp [hk, ih]
    · have hk2 : keptLine (pyStrip a) = false := by
        cases hb : keptLine (pyStrip a)
        · rfl
        · exact absurd hb hk
      simp [hk2, ih]

lemma keptLine_shape {i : List Char} (h : keptLine i = true) :
    ∃ x s, i = x :: s ∧ x ≠ ';' := by
  unfold keptLine at h
  cases hi : i with
  | nil => rw [hi] at h; simp at h
  | cons x s =>
    refine ⟨x, s, rfl, ?_⟩
    rw [hi] at h
    simp [List.isPrefixOf] at h
    intro hx
    exact absurd hx.symm h.1

/-- C3 (code bug in the source, proved of the intended loop): the instruction
sequence is exactly the real instructions of the file in order — each raw line
trimmed, dropped when blank, when a comment line, or when an M105 line, and
inline comments stripped from the survivors — and every produced instruction
is non-empty and free of the comment marker.  The source itself transmits
nothing: line 193 omits the colon of the M105 test and the script dies with a
SyntaxError before reaching any of this. -/
theorem instructionSequence_filters (f : List Char) :
    instructionSequence f =
      (((splitNL f).map pyStrip).filter keptLine).map stripGCode ∧
    ∀ i ∈ instructionSequence f, i ≠ [] ∧ ';' ∉ i := by
  refine ⟨filterMap_processLine _, ?_⟩
  intro i hi
  obtain ⟨raw, _, hp⟩ := List.mem_filterMap.mp hi
  rw [processLine_eq] at hp
  by_cases hk : keptLine (pyStrip raw) = true
  · rw [if_pos hk] at hp
    have hi2 : i = stripGCode (pyStrip raw) := (Option.some.inj hp).symm
    subst hi2
    obtain ⟨x, s, hxs, hx⟩ := keptLine_shape hk
    constructor
    · rw [hxs, stripGCode_cons_ne s hx]
      exact List.cons_ne_nil x _
    · exact stripGCode_no_semi _
  · rw [if_neg hk] at hp
    exact absurd hp (by simp)

/- ------------------------------------------------------------------ -/
/- C7: poll placement within one turn of the print loop.               -/
/- ------------------------------------------------------------------ -/

lemma waitLoop_no_poll : ∀ (waits : List (Bool × List Char)) (st : PrinterState),
    Event.poll ∉ (waitLoop st waits).1 := by
  intro waits
  induction waits with
  | nil => intro st; simp [waitLoop]
  | cons w rest ih =>
    intro st
    obtain ⟨rd, line⟩ := w
    simp only [waitLoop]
    by_cases hready : (parseResponse line st).1 = true
    · simp only [hready, if_true]
      by_cases hrd : rd <;> simp [hrd]
    · have hready2 : (parseResponse line st).1 = false := by
        cases hb : (parseResponse line st).1
        · rfl
        · exact absurd hb hready
      simp only [hready2, Bool.false_eq_true, if_false]
      by_cases hrd : rd <;> simp [hrd, ih]

/-- C7 (amended, proved of the loop with line 193's colon restored): in one
turn of the print loop the events are an optional single poll — present
exactly when the poll interval elapsed, always the very first action — and
then, when the line survives the filter, the instruction send, the immediate
redraw, and the wait loop, none of which ever contains a poll.  In particular
at most one poll occurs per turn and none during the acknowledgment wait. -/
theorem turn_poll_discipline (pollDue : Bool) (rawLine : List Char)
    (st : PrinterState) (waits : List (Bool × List Char)) :
    ∃ rest, (turn pollDue rawLine st waits).1 =
        (if pollDue then [Event.poll] else []) ++ rest ∧
      Event.poll ∉ rest ∧
      (rest = [] ∨ ∃ i w, rest = Event.send i :: Event.redraw :: w ∧
        Event.poll ∉ w) := by
  unfold turn
  by_cases h1 : pyStrip rawLine = []
  · exact ⟨[], by simp [h1], by simp, Or.inl rfl⟩
  · by_cases h2 : [';'].isPrefixOf (pyStrip rawLine) = true
    · exact ⟨[], by simp [h1, h2], by simp, Or.inl rfl⟩
    · have h2b : [';'].isPrefixOf (pyStrip rawLine) = false := by
        cases hb : [';'].isPrefixOf (pyStrip rawLine)
        · rfl
        · exact absurd hb h2
      by_cases h3 : "M105".data.isPrefixOf (pyStrip rawLine) = true
      · exact ⟨[], by simp [h1, h2b, h3], by simp, Or.inl rfl⟩
      · have h3b : "M105".data.isPrefixOf (pyStrip rawLine) = false := by
          cases hb : "M105".data.isPrefixOf (pyStrip rawLine)
          · rfl
          · exact absurd hb h3
        refine ⟨Event.send (stripGCode (pyStrip rawLine)) :: Event.redraw ::
            (waitLoop st waits).1, by simp [h1, h2b, h3b], ?_,
          Or.inr ⟨_, _, rfl, waitLoop_no_poll waits st⟩⟩
        intro hmem
        rcases List.mem_cons.mp hmem with h | h
        · exact absurd h (by simp)
        · rcases List.mem_cons.mp h with h | h
          · exact absurd h (by simp)
          · exact waitLoop_no_poll waits st h

/-- Counterexample to C7 as stated: on a turn whose raw line is the pure
comment ";" while the poll interval has elapsed, a poll is injected although
that instruction is never sent — the poll is not immediately before any send
of that turn, which has no send at all. -/
theorem turn_poll_without_send :
    (turn true [';'] initState []).1 = [Event.poll] ∧
    ∀ pre i post, (turn true [';'] initState []).1 ≠
      pre ++ Event.poll :: Event.send i :: post := by
  refine ⟨rfl, ?_⟩
  intro pre i post he
  rw [show (turn true [';'] initState []).1 = [Event.poll] from rfl] at he
  have hlen := congrArg List.length he
  simp [List.length_append] at hlen
  omega
